import Mathlib

/-!
Shallow embedding of `src/env/carla/multi_env.py` (macad-gym), the multi-actor
CARLA environment `MultiCarlaEnv`.  Python dicts keyed by actor-id strings are
modelled as association lists with Python assignment semantics (update the
existing key in place, otherwise append); Python floats are modelled as `ℚ`;
Python sets (`self.dones`, `set(self.actors)`) as `Finset String`.
-/

namespace MacadGym

/-! ## Python dict primitives -/

/-- Python dict read `d.get(k)` / `d[k]` (as an `Option`). -/
def dictGet {α : Type} : List (String × α) → String → Option α
  | [], _ => none
  | (k', v') :: rest, k => if k' = k then some v' else dictGet rest k

/-- Python dict assignment `d[k] = v`: update the existing entry, else append. -/
def dictInsert {α : Type} : List (String × α) → String → α → List (String × α)
  | [], k, v => [(k, v)]
  | (k', v') :: rest, k, v =>
      if k' = k then (k, v) :: rest else (k', v') :: dictInsert rest k v

theorem dictGet_dictInsert_self {α : Type} (l : List (String × α)) (k : String) (v : α) :
    dictGet (dictInsert l k v) k = some v := by
  induction l with
  | nil => simp [dictInsert, dictGet]
  | cons hd tl ih =>
      by_cases h : hd.1 = k
      · simp [dictInsert, h, dictGet]
      · simp [dictInsert, h, dictGet, ih]

/-! ## Planner commands (`COMMANDS_ENUM`, `COMMAND_ORDINAL`, lines 117-132) -/

/-- The five planner maneuver commands (values of `COMMANDS_ENUM`). -/
inductive Command where
  | REACH_GOAL
  | GO_STRAIGHT
  | TURN_RIGHT
  | TURN_LEFT
  | LANE_FOLLOW
deriving DecidableEq, Repr

/-- `COMMAND_ORDINAL` (lines 126-132): one-hot encoding index per command. -/
def COMMAND_ORDINAL : Command → ℕ
  | .REACH_GOAL => 0
  | .GO_STRAIGHT => 1
  | .TURN_RIGHT => 2
  | .TURN_LEFT => 3
  | .LANE_FOLLOW => 4

/-! ## Discrete action table and control decoding (lines 140-159 and 787-798) -/

/-- `DISCRETE_ACTIONS` (lines 140-159): fixed lookup table from a discrete
action index to a `[throttle/brake, steer]` pair.  Indexing a Python dict at a
missing key raises, modelled by `none`. -/
def DISCRETE_ACTIONS : ℕ → Option (ℚ × ℚ)
  | 0 => some (0, 0)            -- coast
  | 1 => some (0, -(1/2))       -- turn left
  | 2 => some (0, 1/2)          -- turn right
  | 3 => some (1, 0)            -- forward
  | 4 => some (-(1/2), 0)       -- brake
  | 5 => some (1/2, -(1/20))    -- forward left
  | 6 => some (1/2, 1/20)       -- forward right
  | 7 => some (-(1/2), -(1/2))  -- brake left
  | 8 => some (-(1/2), 1/2)     -- brake right
  | _ => none

/-- `np.clip(x, lo, hi)`. -/
def clip (x lo hi : ℚ) : ℚ := max lo (min x hi)

/-- The non-squashed control decoding of `_step` (lines 795-798):
`throttle = clip(action[0], 0, 0.6)`, `brake = |clip(action[0], -1, 0)|`,
`steer = clip(action[1], -1, 1)`.  Returns `(throttle, brake, steer)`. -/
def decodeControl (action : ℚ × ℚ) : ℚ × ℚ × ℚ :=
  (clip action.1 0 (3/5), |clip action.1 (-1) 0|, clip action.2 (-1) 1)

/-! ## Per-agent step bookkeeping (`_step`, lines 856-878, and `collided_done`,
lines 1021-1025) -/

/-- The slice of a `py_measurements` snapshot that `collided_done` reads. -/
structure Measurement where
  collision_vehicles : ℕ
  collision_pedestrians : ℕ
  collision_other : ℕ
  total_reward : ℚ
deriving Repr

/-- `collided_done` (lines 1021-1025): any collision counter positive, or the
running total reward below -100. -/
def collided_done (m : Measurement) : Bool :=
  (decide (m.collision_vehicles > 0) || decide (m.collision_pedestrians > 0)
    || decide (m.collision_other > 0))
  || decide (m.total_reward < -100)

/-- Per-step external inputs to `_step` for one agent: the value returned by
`Reward.compute_reward` and the simulator/planner-derived fields of the fresh
measurement (`_read_observation`). -/
structure StepInput where
  reward : ℚ
  next_command : Command
  collision_vehicles : ℕ
  collision_pedestrians : ℕ
  collision_other : ℕ
deriving Repr

/-- The per-agent mutable bookkeeping of `MultiCarlaEnv` that `_step`
lines 856-878 touch: `self.num_steps[actor_id]` and
`self.total_reward[actor_id]`. -/
structure AgentState where
  num_steps : ℕ
  total_reward : Option ℚ
deriving Repr

/-- Initial values set by `_reset` (lines 660-662): total reward `None`,
step counter `0`. -/
def initAgentState : AgentState := ⟨0, none⟩

/-- Running-total update (lines 864-867): if `self.total_reward[actor_id]` is
`None` it is initialized to this step's reward, else the reward is added. -/
def newTotal (st : AgentState) (reward : ℚ) : ℚ :=
  match st.total_reward with
  | none => reward
  | some t => t + reward

/-- The measurement snapshot fields consulted by the termination test, with
`total_reward` already updated (lines 869-870 run before line 871). -/
def measOf (st : AgentState) (inp : StepInput) : Measurement :=
  ⟨inp.collision_vehicles, inp.collision_pedestrians, inp.collision_other,
    newTotal st inp.reward⟩

/-- One `_step` for one agent (lines 856-878): update the running total,
compute `done` = `num_steps > max_steps or next_command == "REACH_GOAL" or
(early_terminate_on_collision and collided_done(...))` (line 871-874, with the
pre-increment counter), then increment `num_steps` (line 878).  Returns the new
state, the step reward, and the done flag. -/
def agentStep (max_steps : ℕ) (early_terminate : Bool) (st : AgentState)
    (inp : StepInput) : AgentState × ℚ × Bool :=
  let total := newTotal st inp.reward
  let done := decide (st.num_steps > max_steps)
    || decide (inp.next_command = Command.REACH_GOAL)
    || (early_terminate && collided_done (measOf st inp))
  (⟨st.num_steps + 1, some total⟩, inp.reward, done)

/-- Iterate `agentStep` over a list of per-step inputs, collecting the
`(reward, done)` pair of every step. -/
def runAgent (max_steps : ℕ) (early_terminate : Bool) :
    AgentState → List StepInput → AgentState × List (ℚ × Bool)
  | st, [] => (st, [])
  | st, inp :: rest =>
      let r := agentStep max_steps early_terminate st inp
      let tail := runAgent max_steps early_terminate r.1 rest
      (tail.1, (r.2.1, r.2.2) :: tail.2)

/-! ## Observation encoder (`encode_obs`, lines 674-701) -/

/-- A processed camera image, as a list of rows; `np.concatenate([a, b])`
(default axis 0, the leading axis) is list append. -/
abbrev Image := List (List ℤ)

/-- The measurement fields `encode_obs` reads (lines 695-698). -/
structure ObsMeas where
  next_command : Command
  forward_speed : ℚ
  distance_to_goal : ℚ
deriving Repr

/-- The agent-facing observation: either the stacked image alone, or a triple
of (stacked image, one-hot command index, [forward speed, distance to goal])
when the actor config sends measurements. -/
inductive Obs where
  | img (image : Image)
  | withMeasurements (image : Image) (commandOrd : ℕ) (extra : List ℚ)
deriving DecidableEq, Repr

/-- The image component of an encoded observation. -/
def obsImage : Obs → Image
  | .img i => i
  | .withMeasurements i _ _ => i

/-- `encode_obs` (lines 674-701).  `prev` is `self.prev_image`, the single
most-recent raw image buffer (set to `None` only in `__init__`, line 275, and
assigned on every call, line 687).  The `assert self.framestack in [1, 2]`
(line 685) is modelled by returning `none` for other depths.  Returns the
observation together with the new `self.prev_image`. -/
def encode_obs (framestack : ℕ) (send_measurements : Bool) (prev : Option Image)
    (image : Image) (m : ObsMeas) : Option (Obs × Option Image) :=
  if framestack = 1 ∨ framestack = 2 then
    let prev_image := prev.getD image   -- "if prev_image is None: prev_image = image"
    let newPrev : Option Image := some image
    let stacked := if framestack = 2 then prev_image ++ image else image
    if send_measurements then
      some (.withMeasurements stacked (COMMAND_ORDINAL m.next_command)
              [m.forward_speed, m.distance_to_goal], newPrev)
    else
      some (.img stacked, newPrev)
  else none

/-- `_reset` (lines 522-672) contains no assignment to `self.prev_image`: a
soft or hard respawn carries the previous-image buffer over unchanged.  (The
initial observation computed inside `_reset`, line 669, is an ordinary
`encode_obs` call on that carried-over buffer.) -/
def resetPrevImage (prev : Option Image) : Option Image := prev

/-! ## Actor reset lifecycle (`_reset`, lines 544-607, and `step`, line 757) -/

/-- The per-actor registry fields `_reset` consults for one actor:
whether `actor_id in self.actors` (presence), `self.episode_id_dict[actor_id]`
and `self.done_dict[actor_id]`. -/
structure ActorResetState where
  present : Bool
  episode_id : Option ℕ
  doneEntry : Option Bool
deriving Repr

/-- Lines 545-546: a missing `done_dict` entry is initialized to `True`. -/
def normalizeDone (st : ActorResetState) : ActorResetState :=
  match st.doneEntry with
  | none => { st with doneEntry := some true }
  | some _ => st

/-- `_reset`'s per-actor branch (lines 544-607), with a fresh timestamp-based
episode id supplied as `newId`.  An actor marked done that is already present
gets a soft reset (teleport, lines 549-562: `episode_id_dict` untouched); an
absent one gets a hard reset (lines 564-607: new episode id assigned at
line 574, scenario resolved, actor spawned; the spawn is assumed to succeed,
since a failure raises out of `_reset`). -/
def resetActor (st : ActorResetState) (newId : ℕ) : ActorResetState :=
  let st0 := normalizeDone st
  if st0.doneEntry = some true then
    if st0.present then st0
    else { st0 with present := true, episode_id := some newId }
  else st0

/-- The only write `step`/`_step` perform on these fields: `step` stores the
per-agent done flag (line 757).  `episode_id_dict` and actor presence are
untouched by a step. -/
def stepActorEntry (st : ActorResetState) (done : Bool) : ActorResetState :=
  { st with doneEntry := some done }

/-! ## Sensor registry and measurement read (`_reset` lines 609-616,
`_read_observation` lines 931-935) -/

/-- The running collision counters a `CollisionSensor` exposes. -/
structure CollisionState where
  collision_vehicles : ℕ
  collision_pedestrians : ℕ
  collision_other : ℕ
deriving Repr

/-- The flags a `LaneInvasionSensor` exposes. -/
structure LaneState where
  offlane : Bool
  offroad : Bool
deriving Repr

/-- The sensor-derived fields of a measurement (lines 931-935 and 971-975). -/
structure SensorReadout where
  collision_vehicles : ℕ
  collision_pedestrians : ℕ
  collision_other : ℕ
  intersection_otherlane : Bool
  intersection_offroad : Bool
deriving Repr

/-- Python `KeyError` from indexing a dict at a missing key. -/
inductive ReadErr where
  | keyError
deriving DecidableEq, Repr

/-- The sensor-access portion of `_read_observation` (lines 931-935): it
unconditionally indexes `self.collisions[actor_id]` and
`self.lane_invasions[actor_id]`; a missing entry raises a `KeyError`. -/
def readSensorMeasurements (collisions : List (String × CollisionState))
    (lane_invasions : List (String × LaneState)) (actor_id : String) :
    Except ReadErr SensorReadout :=
  match dictGet collisions actor_id with
  | none => .error .keyError
  | some c =>
    match dictGet lane_invasions actor_id with
    | none => .error .keyError
    | some l => .ok ⟨c.collision_vehicles, c.collision_pedestrians,
        c.collision_other, l.offlane, l.offroad⟩

/-- The sensor-attachment step of `_reset` (lines 609-616): a collision sensor
is registered for the actor only when `actor_config["collision_sensor"] ==
"on"`, a lane sensor only when `actor_config["lane_sensor"] == "on"`. -/
def attachSensors (collision_sensor lane_sensor : String)
    (collisions : List (String × CollisionState))
    (lane_invasions : List (String × LaneState))
    (actor_id : String) (c : CollisionState) (l : LaneState) :
    List (String × CollisionState) × List (String × LaneState) :=
  ((if collision_sensor = "on" then dictInsert collisions actor_id c
    else collisions),
   (if lane_sensor = "on" then dictInsert lane_invasions actor_id l
    else lane_invasions))

/-! ## `step` orchestration (lines 703-768), `clear_server_state`
(lines 429-444) -/

/-- A dynamically-typed Python value, as far as `step`'s return tuple needs:
the normal path returns four dicts, the exception path (line 768) returns
`(self.last_obs, 0.0, True, {})`. -/
inductive PyVal where
  | pynone
  | pybool (b : Bool)
  | pyfloat (q : ℚ)
  | pydict (entries : List (String × PyVal))

/-- What `_step(actor_id, action)` (lines 770-903) does for one agent, from
`step`'s point of view (lines 753-760): it either returns an
`(obs, reward, done, info)` tuple or raises.  The simulator, planner and
reward function are external, so the outcome per (agent, action) is an input
of the model. -/
inductive AgentOutcome where
  | ok (obs : PyVal) (reward : ℚ) (done : Bool) (info : PyVal)
  | exn

/-- The argument passed to `step`: either a dict from actor id to an action
(carried here directly as the `_step` outcome the action leads to), or a
non-dict value (line 737). -/
inductive StepArg where
  | dict (entries : List (String × AgentOutcome))
  | notDict

/-- The exceptions `step`'s guard phase raises (lines 729-746). -/
inductive StepError where
  | runtimeError
  | assertionError
  | valueError
deriving DecidableEq, Repr

/-- The result of `stepCore`: a raised guard error, the normal per-agent
dicts, or the degraded result of the `except` clause (lines 763-768). -/
inductive StepOutcome where
  | err (e : StepError)
  | normal (obs : List (String × PyVal)) (rewards : List (String × ℚ))
      (infos : List (String × PyVal))
  | degraded

/-- The `MultiCarlaEnv` fields that `step` reads or writes:
`self.server_process` and `self.client` (modelled as live/not),
`self.actors` (its key set), `self.dones`, `self.done_dict`, `self.last_obs`,
and per actor the `send_measurements` config flag (under which `encode_obs`
lines 693-700 stores the built observation into `self.last_obs`). -/
structure EnvState where
  server_process : Bool
  client : Bool
  actors : Finset String
  dones : Finset String
  done_dict : List (String × Bool)
  last_obs : PyVal
  send_measurements : Finset String

/-- `clear_server_state` (lines 429-444): drop the client handle and kill /
forget the server process. -/
def clearServerState (s : EnvState) : EnvState :=
  { s with client := false, server_process := false }

/-- The `for actor_id, action in action_dict.items()` loop of `step`
(lines 753-760): call `_step`, collect obs/reward/info, store the done flag in
`self.done_dict`, add done actors to `self.dones`.  A raised exception stops
the loop, keeping the side effects of the agents already processed; the
partially-filled accumulators are discarded by the `except` clause. -/
def stepLoop : List (String × AgentOutcome) → EnvState →
    List (String × PyVal) → List (String × ℚ) → List (String × PyVal) →
    Option (List (String × PyVal) × List (String × ℚ) × List (String × PyVal))
      × EnvState
  | [], s, obsAcc, rewAcc, infoAcc => (some (obsAcc, rewAcc, infoAcc), s)
  | (_, .exn) :: _, s, _, _, _ => (none, s)
  | (aid, .ok obs r d info) :: rest, s, obsAcc, rewAcc, infoAcc =>
      let s1 : EnvState :=
        { s with
          done_dict := dictInsert s.done_dict aid d,
          dones := if d then insert aid s.dones else s.dones,
          last_obs := if aid ∈ s.send_measurements then obs else s.last_obs }
      stepLoop rest s1 (dictInsert obsAcc aid obs) (dictInsert rewAcc aid r)
        (dictInsert infoAcc aid info)

/-- The `try` block of `step` after the guards (lines 748-768): run the
per-agent loop; on success `done_dict["__all__"] = len(self.dones) ==
len(self.actors)` (line 761) and return the collected dicts (line 762); on an
exception, `clear_server_state` (line 767) and the degraded result
(line 768). -/
def stepChecked (s : EnvState) (entries : List (String × AgentOutcome)) :
    StepOutcome × EnvState :=
  match stepLoop entries s [] [] [] with
  | (some (obsAcc, rewAcc, infoAcc), s1) =>
      let allFlag := decide (s1.dones.card = s1.actors.card)
      let s2 := { s1 with
        done_dict := dictInsert s1.done_dict "__all__" allFlag }
      (.normal obsAcc rewAcc infoAcc, s2)
  | (none, s1) => (.degraded, clearServerState s1)

/-- `step(action_dict)` (lines 703-768).  Guard phase (lines 729-746):
RuntimeError unless both a live server process and a client handle exist;
AssertionError if the actor registry is empty; ValueError for a non-dict
argument or for action keys outside the registry.  Then the `try` block
(`stepChecked`). -/
def stepCore (s : EnvState) (arg : StepArg) : StepOutcome × EnvState :=
  if s.server_process && s.client then
    if s.actors.card = 0 then (.err .assertionError, s)
    else
      match arg with
      | .notDict => (.err .valueError, s)
      | .dict entries =>
          if entries.all (fun p => decide (p.1 ∈ s.actors)) then
            stepChecked s entries
          else (.err .valueError, s)
  else (.err .runtimeError, s)

/-- The Python value `step` returns (or `none` if it raised): line 762 for the
normal path (the done dict returned is `self.done_dict` itself), line 768 for
the degraded path `(self.last_obs, 0.0, True, {})`. -/
def renderResult (o : StepOutcome) (s : EnvState) :
    Option (PyVal × PyVal × PyVal × PyVal) :=
  match o with
  | .err _ => none
  | .normal obsAcc rewAcc infoAcc =>
      some (.pydict obsAcc,
        .pydict (rewAcc.map (fun p => (p.1, PyVal.pyfloat p.2))),
        .pydict (s.done_dict.map (fun p => (p.1, PyVal.pybool p.2))),
        .pydict infoAcc)
  | .degraded => some (s.last_obs, .pyfloat 0, .pybool true, .pydict [])

/-- A sequence of `step` calls, collecting each call's outcome and the state
right after it. -/
def runSteps : EnvState → List StepArg → List (StepOutcome × EnvState)
  | _, [] => []
  | s, a :: rest =>
      let r := stepCore s a
      r :: runSteps r.2 rest

/-! ## Helper lemmas and concrete fixtures -/

/-- A per-step input for an agent that is "not otherwise done": zero reward,
non-terminal maneuver, no collisions. -/
def benignInput : StepInput := ⟨0, .LANE_FOLLOW, 0, 0, 0⟩

theorem runAgent_total_some (m : ℕ) (e : Bool) (inputs : List StepInput) :
    ∀ c : ℕ, ∀ t : ℚ, (runAgent m e ⟨c, some t⟩ inputs).1.total_reward
      = some (t + (inputs.map StepInput.reward).sum) := by
  induction inputs with
  | nil => intro c t; simp [runAgent]
  | cons i rest ih =>
      intro c t
      simp only [runAgent, agentStep, newTotal, List.map_cons, List.sum_cons]
      rw [ih]
      rw [add_assoc]

theorem collided_done_benign (c : ℕ) :
    collided_done (measOf ⟨c, some 0⟩ benignInput) = false := by
  have h1 : ¬ ((0 : ℚ) + 0 < -100) := by norm_num
  simp [collided_done, measOf, newTotal, benignInput, h1]

theorem collided_done_benign_init :
    collided_done (measOf initAgentState benignInput) = false := by
  have h1 : ¬ ((0 : ℚ) < -100) := by norm_num
  simp [collided_done, measOf, newTotal, benignInput, initAgentState, h1]

theorem agentStep_benign (m : ℕ) (e : Bool) (c : ℕ) :
    agentStep m e ⟨c, some 0⟩ benignInput
      = (⟨c + 1, some 0⟩, 0, decide (c > m)) := by
  have hz := collided_done_benign c
  simp only [agentStep]
  rw [hz]
  simp [newTotal, benignInput]

theorem agentStep_benign_init (m : ℕ) (e : Bool) :
    agentStep m e initAgentState benignInput
      = (⟨1, some 0⟩, 0, decide (0 > m)) := by
  have hz := collided_done_benign_init
  simp only [agentStep]
  rw [hz]
  simp [newTotal, benignInput, initAgentState]

theorem runAgent_benign_dones (m : ℕ) (e : Bool) (n : ℕ) :
    ∀ c : ℕ, ((runAgent m e ⟨c, some 0⟩ (List.replicate n benignInput)).2.map
        Prod.snd) = (List.range n).map (fun i => decide (c + i > m)) := by
  induction n with
  | zero => intro c; simp [runAgent]
  | succ n ih =>
      intro c
      rw [List.replicate_succ, List.range_succ_eq_map]
      simp only [runAgent, agentStep_benign m e c, List.map_cons]
      rw [ih (c + 1)]
      simp only [List.map_map]
      congr 1
      apply List.map_congr_left
      intro i _
      simp only [Function.comp]
      rw [decide_eq_decide]
      omega

/-! ## Claim theorems -/

/-- C7: in discrete-action mode every action index is decoded through the
fixed lookup table `DISCRETE_ACTIONS` to a (throttle/brake, steer) pair; in
particular index 0 decodes to throttle 0.0 and steer 0.0 (coast), and index 4
decodes to a negative throttle/brake component (-0.5) and zero steer, which
the control decoding turns into brake 0.5 and steer 0. -/
theorem discrete_action_table_decoding :
    DISCRETE_ACTIONS 0 = some (0, 0) ∧ decodeControl (0, 0) = (0, 0, 0) ∧
    DISCRETE_ACTIONS 4 = some (-(1/2), 0) ∧ ((-(1/2) : ℚ) < 0) ∧
    decodeControl (-(1/2), 0) = (0, 1/2, 0) := by
  refine ⟨rfl, ?_, rfl, by norm_num, ?_⟩
  · have h1 : min (0 : ℚ) (3/5) = 0 := min_eq_left (by norm_num)
    have h3 : min (0 : ℚ) 1 = 0 := min_eq_left (by norm_num)
    have h4 : max (-1 : ℚ) 0 = 0 := max_eq_right (by norm_num)
    simp only [decodeControl, clip, h1, h3, h4, min_self, max_self, abs_zero]
  · have h1 : min (-(1/2) : ℚ) (3/5) = -(1/2) := min_eq_left (by norm_num)
    have h2 : max (0 : ℚ) (-(1/2)) = 0 := max_eq_left (by norm_num)
    have h3 : min (-(1/2) : ℚ) 0 = -(1/2) := min_eq_left (by norm_num)
    have h4 : max (-1 : ℚ) (-(1/2)) = -(1/2) := max_eq_right (by norm_num)
    have h5 : |(-(1/2) : ℚ)| = 1/2 := by
      rw [abs_neg]
      exact abs_of_pos (by norm_num)
    have h6 : min (0 : ℚ) 1 = 0 := min_eq_left (by norm_num)
    have h7 : max (-1 : ℚ) 0 = 0 := max_eq_right (by norm_num)
    simp only [decodeControl, clip, h1, h2, h3, h4, h5, h6, h7]

/-- C5: the running total reward after step k equals r1 + ... + rk — it is
initialized to the first step's reward after a (re)spawn (`_reset` sets it to
None) and each later step adds its reward. -/
theorem total_reward_accumulates (max_steps : ℕ) (et : Bool)
    (inputs : List StepInput) (h : inputs ≠ []) :
    (runAgent max_steps et initAgentState inputs).1.total_reward
      = some ((inputs.map StepInput.reward).sum) := by
  match inputs, h with
  | i :: rest, _ =>
      simp only [initAgentState, runAgent, agentStep, newTotal, List.map_cons,
        List.sum_cons]
      rw [runAgent_total_some]

/-- Witness for C5: with reward sequence 3, 5 the total after the two steps is
8 (= 3 + 5), via `total_reward_accumulates`. -/
theorem total_reward_accumulates_witness :
    (runAgent 2 true initAgentState
        [⟨3, .LANE_FOLLOW, 0, 0, 0⟩, ⟨5, .LANE_FOLLOW, 0, 0, 0⟩]).1.total_reward
      = some 8 := by
  have h := total_reward_accumulates 2 true
    [⟨3, .LANE_FOLLOW, 0, 0, 0⟩, ⟨5, .LANE_FOLLOW, 0, 0, 0⟩] (by simp)
  rw [h]
  norm_num

/-- C3 counterexample: with `max_steps = 2` and an agent not otherwise done
(zero reward, no collision, non-terminal maneuver, early termination on), the
done flags of the first three steps are all false — done does NOT become true
at step 3, because `_step` compares the pre-increment counter (0, 1, 2 on the
first three calls) with `max_steps`. -/
theorem step_budget_counterexample :
    ((runAgent 2 true initAgentState (List.replicate 3 benignInput)).2.map
        Prod.snd) = [false, false, false] := by
  simp only [List.replicate_succ, List.replicate_zero, runAgent,
    agentStep_benign_init, agentStep_benign, List.map_cons, List.map_nil]
  simp

/-- C3 (amended): the per-agent done flag is true exactly when the
pre-increment step counter (number of previously completed steps) exceeds
`max_steps`, or the next command is REACH_GOAL, or early termination is set
and the collision/reward-floor condition holds; consequently, for an agent
not otherwise done with `max_steps = 2`, done becomes true exactly starting
at step 4 (the k-th call compares k-1 with `max_steps`). -/
theorem agent_done_characterization (max_steps n : ℕ) (et : Bool) :
    ((runAgent max_steps et initAgentState (List.replicate n benignInput)).2.map
        Prod.snd) = (List.range n).map (fun i => decide (i > max_steps)) ∧
    (∀ st : AgentState, ∀ inp : StepInput,
      ((agentStep max_steps et st inp).2.2 = true ↔
        (st.num_steps > max_steps ∨ inp.next_command = Command.REACH_GOAL ∨
          (et = true ∧ collided_done (measOf st inp) = true)))) := by
  constructor
  · match n with
    | 0 => simp [runAgent]
    | n + 1 =>
        rw [List.replicate_succ, List.range_succ_eq_map]
        simp only [runAgent, agentStep_benign_init, List.map_cons]
        rw [runAgent_benign_dones max_steps et n 1]
        simp only [List.map_map]
        congr 1
        apply List.map_congr_left
        intro i _
        simp only [Function.comp]
        rw [decide_eq_decide]
        omega
  · intro st inp
    simp [agentStep, Bool.or_eq_true, Bool.and_eq_true, decide_eq_true_iff,
      or_assoc]

/-- C6 counterexample: `self.prev_image` survives a respawn (`_reset` never
clears it), so the first encoded observation after a RE-spawn stacks the
previous episode's last image with the current one, not the current image
with itself.  Episode 1 encodes image `[[0]]` (leaving it in the buffer); the
respawn carries the buffer over; the first encode of episode 2 on image
`[[1]]` yields `[[0]] ++ [[1]]`, not `[[1]] ++ [[1]]`. -/
theorem framestack_respawn_counterexample :
    encode_obs 2 false none [[0]] ⟨.LANE_FOLLOW, 0, 0⟩
      = some (.img ([[0]] ++ [[0]]), some [[0]]) ∧
    encode_obs 2 false (resetPrevImage (some [[0]])) [[1]] ⟨.LANE_FOLLOW, 0, 0⟩
      = some (.img ([[0]] ++ [[1]]), some [[1]]) ∧
    Obs.img ([[0]] ++ [[1]]) ≠ Obs.img ([[1]] ++ [[1]]) := by
  refine ⟨rfl, rfl, ?_⟩
  simp

/-- C6 (amended): with frame-stack depth 1 the encoded observation's image is
the raw processed image; with depth 2 it is the previous and current images
concatenated along the leading axis; when no previous image exists (only on
the environment's very first encode) the current image is its own
predecessor.  A (re)spawn does not clear the previous-image buffer
(`resetPrevImage`), so the first encode after a respawn uses the previous
episode's last image. -/
theorem encode_obs_framestack (sm : Bool) (prev : Option Image)
    (img p : Image) (m : ObsMeas) :
    ((encode_obs 1 sm prev img m).map (fun r => (obsImage r.1, r.2))
      = some (img, some img)) ∧
    (prev = some p →
      (encode_obs 2 sm prev img m).map (fun r => (obsImage r.1, r.2))
        = some (p ++ img, some img)) ∧
    (prev = none →
      (encode_obs 2 sm prev img m).map (fun r => (obsImage r.1, r.2))
        = some (img ++ img, some img)) ∧
    resetPrevImage prev = prev := by
  refine ⟨?_, ?_, ?_, rfl⟩
  · cases sm <;> simp [encode_obs, obsImage]
  · intro h
    subst h
    cases sm <;> simp [encode_obs, obsImage]
  · intro h
    subst h
    cases sm <;> simp [encode_obs, obsImage]

/-- Witness for C6 (amended): depth 1 passes `[[7]]` through; depth 2 stacks
the buffered `[[5]]` in front of `[[7]]`; with an empty buffer `[[7]]` is
stacked with itself. -/
theorem encode_obs_framestack_witness :
    ((encode_obs 1 false (some [[5]]) [[7]] ⟨.LANE_FOLLOW, 0, 0⟩).map
        (fun r => (obsImage r.1, r.2)) = some ([[7]], some [[7]])) ∧
    ((encode_obs 2 false (some [[5]]) [[7]] ⟨.LANE_FOLLOW, 0, 0⟩).map
        (fun r => (obsImage r.1, r.2)) = some ([[5]] ++ [[7]], some [[7]])) ∧
    ((encode_obs 2 false none [[7]] ⟨.LANE_FOLLOW, 0, 0⟩).map
        (fun r => (obsImage r.1, r.2)) = some ([[7]] ++ [[7]], some [[7]])) :=
  ⟨(encode_obs_framestack false (some [[5]]) [[7]] [[5]] ⟨.LANE_FOLLOW, 0, 0⟩).1,
   (encode_obs_framestack false (some [[5]]) [[7]] [[5]]
      ⟨.LANE_FOLLOW, 0, 0⟩).2.1 rfl,
   (encode_obs_framestack false none [[7]] [[5]] ⟨.LANE_FOLLOW, 0, 0⟩).2.2.1 rfl⟩

/-- C8: an actor's episode id is assigned (the fresh value) exactly on a hard
(from-scratch) respawn — actor absent and marked done (a missing done entry
counting as done) — and is left unchanged by a soft reset of a present actor,
by a reset of a not-done actor, and by every step. -/
theorem episode_id_hard_reset_only (st : ActorResetState) (newId : ℕ)
    (d : Bool) :
    ((resetActor st newId).episode_id =
      if st.present = false ∧ (normalizeDone st).doneEntry = some true
      then some newId else st.episode_id) ∧
    (stepActorEntry st d).episode_id = st.episode_id := by
  refine ⟨?_, rfl⟩
  rcases st with ⟨p, eid, de⟩
  rcases de with _ | b
  · cases p <;> simp [resetActor, normalizeDone]
  · cases p <;> cases b <;> simp [resetActor, normalizeDone]

/-- C10: `_read_observation` unconditionally indexes the collision and lane
sensor registries, so a measurement read succeeds exactly for agents with
both sensors attached; with either sensor config not "on" the entry is never
registered and the read fails with a lookup (KeyError) error instead of
producing a measurement with absent fields. -/
theorem read_observation_requires_sensors (cs ls : String)
    (cols : List (String × CollisionState)) (lanes : List (String × LaneState))
    (aid : String) (c : CollisionState) (l : LaneState)
    (hc0 : dictGet cols aid = none) (hl0 : dictGet lanes aid = none) :
    (cs = "on" → ls = "on" →
      readSensorMeasurements (attachSensors cs ls cols lanes aid c l).1
        (attachSensors cs ls cols lanes aid c l).2 aid
        = .ok ⟨c.collision_vehicles, c.collision_pedestrians,
            c.collision_other, l.offlane, l.offroad⟩) ∧
    (cs ≠ "on" →
      readSensorMeasurements (attachSensors cs ls cols lanes aid c l).1
        (attachSensors cs ls cols lanes aid c l).2 aid = .error .keyError) ∧
    (ls ≠ "on" →
      readSensorMeasurements (attachSensors cs ls cols lanes aid c l).1
        (attachSensors cs ls cols lanes aid c l).2 aid = .error .keyError) := by
  refine ⟨?_, ?_, ?_⟩
  · intro h1 h2
    simp [attachSensors, h1, h2, readSensorMeasurements,
      dictGet_dictInsert_self]
  · intro h1
    simp [attachSensors, h1, readSensorMeasurements, hc0]
  · intro h1
    by_cases h2 : cs = "on"
    · simp [attachSensors, h1, h2, readSensorMeasurements,
        dictGet_dictInsert_self, hl0]
    · simp [attachSensors, h1, h2, readSensorMeasurements, hc0]

/-- Witness for C10: with the collision sensor "on" but the lane sensor
"off", reading the measurement raises KeyError; with both "on" it returns the
sensor readout. -/
theorem read_observation_requires_sensors_witness :
    readSensorMeasurements
        (attachSensors "on" "off" [] [] "a" ⟨1, 0, 0⟩ ⟨false, true⟩).1
        (attachSensors "on" "off" [] [] "a" ⟨1, 0, 0⟩ ⟨false, true⟩).2 "a"
      = .error .keyError ∧
    readSensorMeasurements
        (attachSensors "on" "on" [] [] "a" ⟨1, 0, 0⟩ ⟨false, true⟩).1
        (attachSensors "on" "on" [] [] "a" ⟨1, 0, 0⟩ ⟨false, true⟩).2 "a"
      = .ok ⟨1, 0, 0, false, true⟩ :=
  ⟨(read_observation_requires_sensors "on" "off" [] [] "a" ⟨1, 0, 0⟩
      ⟨false, true⟩ rfl rfl).2.2 (by decide),
   (read_observation_requires_sensors "on" "on" [] [] "a" ⟨1, 0, 0⟩
      ⟨false, true⟩ rfl rfl).1 rfl rfl⟩

/-! ## Helper lemmas for the `step` orchestration model -/

theorem stepLoop_fields (entries : List (String × AgentOutcome)) :
    ∀ (s : EnvState) oA rA iA,
      (stepLoop entries s oA rA iA).2.actors = s.actors ∧
      (stepLoop entries s oA rA iA).2.server_process = s.server_process ∧
      (stepLoop entries s oA rA iA).2.client = s.client := by
  induction entries with
  | nil => intro s oA rA iA; exact ⟨rfl, rfl, rfl⟩
  | cons e rest ih =>
      intro s oA rA iA
      rcases e with ⟨aid, o⟩
      cases o with
      | exn => exact ⟨rfl, rfl, rfl⟩
      | ok obs r d info =>
          simp only [stepLoop]
          exact ih _ _ _ _

theorem stepLoop_dones_subset (entries : List (String × AgentOutcome)) :
    ∀ (s : EnvState) oA rA iA, (∀ p ∈ entries, p.1 ∈ s.actors) →
      s.dones ⊆ s.actors → (stepLoop entries s oA rA iA).2.dones ⊆ s.actors := by
  induction entries with
  | nil => intro s oA rA iA _ hsub; exact hsub
  | cons e rest ih =>
      intro s oA rA iA hkeys hsub
      rcases e with ⟨aid, o⟩
      cases o with
      | exn => exact hsub
      | ok obs r d info =>
          have haid : aid ∈ s.actors :=
            hkeys (aid, .ok obs r d info) (List.mem_cons_self _ _)
          simp only [stepLoop]
          apply ih
          · intro p hp
            exact hkeys p (List.mem_cons_of_mem _ hp)
          · intro x hx
            dsimp only at hx
            split at hx
            · rcases Finset.mem_insert.mp hx with h1 | h2
              · subst h1
                exact haid
              · exact hsub h2
            · exact hsub hx

theorem stepLoop_none_of_exn (entries : List (String × AgentOutcome)) :
    ∀ (s : EnvState) oA rA iA, (∃ p ∈ entries, p.2 = AgentOutcome.exn) →
      (stepLoop entries s oA rA iA).1 = none := by
  induction entries with
  | nil => intro s oA rA iA h; simp at h
  | cons e rest ih =>
      intro s oA rA iA hexn
      rcases e with ⟨aid, o⟩
      cases o with
      | exn => rfl
      | ok obs r d info =>
          rcases hexn with ⟨p, hp, he⟩
          rcases List.mem_cons.mp hp with h1 | h2
          · rw [h1] at he
            exact absurd he (by simp)
          · simp only [stepLoop]
            exact ih _ _ _ _ ⟨p, h2, he⟩

theorem card_eq_iff_superset {dones actors : Finset String}
    (h : dones ⊆ actors) : dones.card = actors.card ↔ actors ⊆ dones := by
  constructor
  · intro hc
    have he : dones = actors := Finset.eq_of_subset_of_card_le h (le_of_eq hc.symm)
    rw [he]
  · intro hsup
    have he : dones = actors := Finset.Subset.antisymm h hsup
    rw [he]

theorem stepChecked_all_flag (s : EnvState)
    (entries : List (String × AgentOutcome))
    (hkeys : ∀ p ∈ entries, p.1 ∈ s.actors) (hinv : s.dones ⊆ s.actors) :
    (stepChecked s entries).2.dones ⊆ (stepChecked s entries).2.actors ∧
    (∀ oA rA iA, (stepChecked s entries).1 = .normal oA rA iA →
      dictGet (stepChecked s entries).2.done_dict "__all__"
        = some (decide ((stepChecked s entries).2.actors
            ⊆ (stepChecked s entries).2.dones))) := by
  have hfields := stepLoop_fields entries s [] [] []
  have hsub := stepLoop_dones_subset entries s [] [] [] hkeys hinv
  unfold stepChecked
  rcases hsl : stepLoop entries s [] [] [] with ⟨res, s1⟩
  rw [hsl] at hfields hsub
  rcases res with _ | ⟨⟨oAcc, rAcc, iAcc⟩⟩
  · -- exception path: dones and actors are those of s1 (clearServerState
    -- keeps both); the outcome is degraded, so the second conjunct is vacuous
    refine ⟨?_, ?_⟩
    · rw [← hfields.1] at hsub
      exact hsub
    · intro oA rA iA h
      exact absurd h (by simp)
  · refine ⟨?_, ?_⟩
    · rw [← hfields.1] at hsub
      exact hsub
    · intro oA rA iA _
      have hget := dictGet_dictInsert_self s1.done_dict "__all__"
        (decide (s1.dones.card = s1.actors.card))
      refine hget.trans ?_
      congr 1
      rw [decide_eq_decide]
      rw [← hfields.1] at hsub
      exact card_eq_iff_superset hsub

theorem stepCore_all_flag (s : EnvState) (a : StepArg)
    (hinv : s.dones ⊆ s.actors) :
    (stepCore s a).2.dones ⊆ (stepCore s a).2.actors ∧
    (∀ oA rA iA, (stepCore s a).1 = .normal oA rA iA →
      dictGet (stepCore s a).2.done_dict "__all__"
        = some (decide ((stepCore s a).2.actors ⊆ (stepCore s a).2.dones))) := by
  unfold stepCore
  cases hb : (s.server_process && s.client) with
  | false => exact ⟨hinv, fun oA rA iA h => absurd h (by simp)⟩
  | true =>
      simp only [if_true]
      by_cases hcard : s.actors.card = 0
      · simp only [hcard, if_pos rfl]
        exact ⟨hinv, fun oA rA iA h => absurd h (by simp)⟩
      · simp only [if_neg hcard]
        cases a with
        | notDict => exact ⟨hinv, fun oA rA iA h => absurd h (by simp)⟩
        | dict entries =>
            by_cases hall : entries.all (fun p => decide (p.1 ∈ s.actors)) = true
            · simp only [hall, if_pos rfl]
              apply stepChecked_all_flag
              · intro p hp
                have := List.all_eq_true.mp hall p hp
                exact of_decide_eq_true this
              · exact hinv
            · simp only [hall]
              exact ⟨hinv, fun oA rA iA h => absurd h (by simp)⟩

theorem stepCore_degraded_state (s : EnvState) (a : StepArg) (s1 : EnvState)
    (hd : stepCore s a = (.degraded, s1)) :
    s1.client = false ∧ s1.server_process = false := by
  unfold stepCore at hd
  split at hd
  · split at hd
    · simp [Prod.mk.injEq] at hd
    · split at hd
      · simp [Prod.mk.injEq] at hd
      · split at hd
        · unfold stepChecked at hd
          rcases hsl : stepLoop _ s [] [] [] with ⟨res, s1'⟩
          rw [hsl] at hd
          rcases res with _ | ⟨⟨oAcc, rAcc, iAcc⟩⟩
          · simp only [Prod.mk.injEq] at hd
            rw [← hd.2]
            exact ⟨rfl, rfl⟩
          · simp [Prod.mk.injEq] at hd
        · simp [Prod.mk.injEq] at hd
  · simp [Prod.mk.injEq] at hd

theorem stepCore_no_client (s : EnvState) (a : StepArg)
    (h : s.client = false) : stepCore s a = (.err .runtimeError, s) := by
  have hb : (s.server_process && s.client) = false := by simp [h]
  simp [stepCore, hb]

theorem runSteps_no_client (s : EnvState) (h : s.client = false)
    (args : List StepArg) :
    (runSteps s args).map Prod.fst
      = args.map (fun _ => StepOutcome.err .runtimeError) := by
  induction args with
  | nil => rfl
  | cons a rest ih =>
      simp only [runSteps, stepCore_no_client s a h, List.map_cons]
      exact congrArg _ ih

/-! ## Fixtures for the `step` orchestration claims -/

/-- A one-agent environment state right after a successful reset: live server
process and client, actor registry containing "a", empty done set. -/
def witnessState : EnvState :=
  ⟨true, true, {"a"}, ∅, [], .pynone, ∅⟩

/-- An action dict for agent "a" whose `_step` returns normally, done. -/
def witnessArg : StepArg := .dict [("a", .ok .pynone 1 true .pynone)]

/-- A one-agent environment state right after a successful reset (used for
the fault scenarios). -/
def faultState : EnvState :=
  ⟨true, true, {"a"}, ∅, [], .pynone, ∅⟩

/-- An action dict for agent "a" whose `_step` raises. -/
def faultArg : StepArg := .dict [("a", .exn)]

/-- The shape the spec claims for every returned step tuple: four per-agent
maps. -/
def perAgentShaped (r : PyVal × PyVal × PyVal × PyVal) : Prop :=
  (∃ d, r.1 = PyVal.pydict d) ∧ (∃ d, r.2.1 = PyVal.pydict d) ∧
  (∃ d, r.2.2.1 = PyVal.pydict d) ∧ (∃ d, r.2.2.2 = PyVal.pydict d)

/-- C1: for every sequence of `step` calls starting from a state whose
accumulated done set only holds tracked agent ids (true after `reset`, where
`dones` starts empty), every call that returns normally stores in
`done_dict["__all__"]` exactly whether every tracked agent id (key of the
actor registry) is in the accumulated done set. -/
theorem step_all_done_flag (s0 : EnvState) (args : List StepArg)
    (h : s0.dones ⊆ s0.actors) :
    ∀ p ∈ runSteps s0 args, ∀ oA rA iA, p.1 = .normal oA rA iA →
      dictGet p.2.done_dict "__all__"
        = some (decide (p.2.actors ⊆ p.2.dones)) := by
  induction args generalizing s0 with
  | nil => intro p hp; simp [runSteps] at hp
  | cons a rest ih =>
      intro p hp oA rA iA hnorm
      simp only [runSteps, List.mem_cons] at hp
      rcases hp with h1 | h2
      · subst h1
        exact (stepCore_all_flag s0 a h).2 oA rA iA hnorm
      · exact ih (stepCore s0 a).2 (stepCore_all_flag s0 a h).1 p h2
          oA rA iA hnorm

/-- Witness for C1: one agent "a", one normal step that marks it done; the
stored `"__all__"` flag equals whether the registry is covered by the done
set (here: true). -/
theorem step_all_done_flag_witness :
    (∅ : Finset String) ⊆ witnessState.actors ∧
    dictGet (stepCore witnessState witnessArg).2.done_dict "__all__"
      = some (decide ((stepCore witnessState witnessArg).2.actors
          ⊆ (stepCore witnessState witnessArg).2.dones)) := by
  refine ⟨by simp, ?_⟩
  exact step_all_done_flag witnessState [witnessArg] (by simp [witnessState])
    (stepCore witnessState witnessArg) (by simp [runSteps]) _ _ _ rfl

/-- C4: `step` raises RuntimeError when called without a live server process
and client handle (i.e. before a successful `reset`), ValueError when its
argument is not a dict, and ValueError when the action dict holds an agent id
outside the actor registry — in each case during the guard phase, with the
environment state unchanged (no per-agent state modified, no simulator
call). -/
theorem step_guard_errors (s : EnvState) (a : StepArg)
    (entries : List (String × AgentOutcome)) :
    (¬(s.server_process = true ∧ s.client = true) →
      stepCore s a = (.err .runtimeError, s)) ∧
    (s.server_process = true → s.client = true → a = .notDict →
      0 < s.actors.card → stepCore s a = (.err .valueError, s)) ∧
    (s.server_process = true → s.client = true → a = .dict entries →
      0 < s.actors.card → ¬(∀ p ∈ entries, p.1 ∈ s.actors) →
      stepCore s a = (.err .valueError, s)) := by
  refine ⟨?_, ?_, ?_⟩
  · intro h
    have hb : (s.server_process && s.client) = false := by
      cases hs : s.server_process <;> cases hc : s.client <;> simp_all
    simp [stepCore, hb]
  · intro hs hc ha hcard
    subst ha
    have h0 : ¬ s.actors.card = 0 := by omega
    simp [stepCore, hs, hc, h0]
  · intro hs hc ha hcard hall
    subst ha
    have h0 : ¬ s.actors.card = 0 := by omega
    have hb : entries.all (fun p => decide (p.1 ∈ s.actors)) = false := by
      rw [List.all_eq_false]
      push_neg at hall
      obtain ⟨p, hp, hnp⟩ := hall
      exact ⟨p, hp, by simp [hnp]⟩
    simp [stepCore, hs, hc, h0, hb]

/-- Witness for C4: a torn-down state raises RuntimeError; a live one-agent
state raises ValueError on a non-dict argument and on an unknown agent id
"b"; the state is unchanged each time. -/
theorem step_guard_errors_witness :
    stepCore ⟨false, false, {"a"}, ∅, [], .pynone, ∅⟩ .notDict
      = (.err .runtimeError, ⟨false, false, {"a"}, ∅, [], .pynone, ∅⟩) ∧
    stepCore witnessState .notDict = (.err .valueError, witnessState) ∧
    stepCore witnessState (.dict [("b", .exn)])
      = (.err .valueError, witnessState) := by
  refine ⟨?_, ?_, ?_⟩
  · exact (step_guard_errors ⟨false, false, {"a"}, ∅, [], .pynone, ∅⟩
      .notDict []).1 (by simp)
  · exact (step_guard_errors witnessState .notDict []).2.1 rfl rfl rfl
      (by simp [witnessState])
  · exact (step_guard_errors witnessState (.dict [("b", .exn)])
      [("b", .exn)]).2.2 rfl rfl rfl (by simp [witnessState])
      (by simp [witnessState])

/-- C2 counterexample: with one tracked agent whose `_step` raises, `step`
returns `(self.last_obs, 0.0, True, {})` — a bare observation, a scalar zero
reward, a scalar True and an empty dict — which is NOT four per-agent maps of
the same shape as a normal result tuple (the reward component is a float, not
a dict). -/
theorem step_exception_shape_counterexample :
    renderResult (stepCore faultState faultArg).1
        (stepCore faultState faultArg).2
      = some (.pynone, .pyfloat 0, .pybool true, .pydict []) ∧
    ¬ perAgentShaped (.pynone, .pyfloat 0, .pybool true, .pydict []) := by
  constructor
  · rfl
  · rintro ⟨-, ⟨d, hd⟩, -, -⟩
    exact PyVal.noConfusion hd

/-- C2 (amended): if `_step` raises for some agent in the action dict, `step`
catches the exception, tears down the simulator connection and process state
(`clear_server_state`: client handle dropped, server process killed), and
returns the degraded 4-tuple `(self.last_obs, 0.0, True, {})` — the last
stored observation with scalar zero reward, scalar True done and empty info,
not per-agent maps — instead of propagating the exception. -/
theorem step_exception_degrades (s : EnvState)
    (entries : List (String × AgentOutcome))
    (hs : s.server_process = true) (hc : s.client = true)
    (hcard : 0 < s.actors.card)
    (hkeys : ∀ p ∈ entries, p.1 ∈ s.actors)
    (hexn : ∃ p ∈ entries, p.2 = AgentOutcome.exn) :
    (stepCore s (.dict entries)).1 = .degraded ∧
    renderResult (stepCore s (.dict entries)).1 (stepCore s (.dict entries)).2
      = some ((stepCore s (.dict entries)).2.last_obs, .pyfloat 0,
          .pybool true, .pydict []) ∧
    (stepCore s (.dict entries)).2.client = false ∧
    (stepCore s (.dict entries)).2.server_process = false := by
  have h0 : ¬ s.actors.card = 0 := by omega
  have hall : entries.all (fun p => decide (p.1 ∈ s.actors)) = true := by
    rw [List.all_eq_true]
    intro p hp
    exact decide_eq_true (hkeys p hp)
  have hnone := stepLoop_none_of_exn entries s [] [] [] hexn
  have hstep : stepCore s (.dict entries) = stepChecked s entries := by
    simp [stepCore, hs, hc, h0, hall]
  rcases hsl : stepLoop entries s [] [] [] with ⟨res, s1'⟩
  rw [hsl] at hnone
  have hres : res = none := hnone
  subst hres
  have hchecked : stepChecked s entries = (.degraded, clearServerState s1') := by
    unfold stepChecked
    rw [hsl]
  rw [hstep, hchecked]
  exact ⟨rfl, rfl, rfl, rfl⟩

/-- Witness for C2 (amended): the one-agent fault scenario, evaluated. -/
theorem step_exception_degrades_witness :
    (stepCore faultState faultArg).1 = .degraded ∧
    renderResult (stepCore faultState faultArg).1
        (stepCore faultState faultArg).2
      = some ((stepCore faultState faultArg).2.last_obs, .pyfloat 0,
          .pybool true, .pydict []) ∧
    (stepCore faultState faultArg).2.client = false ∧
    (stepCore faultState faultArg).2.server_process = false :=
  step_exception_degrades faultState [("a", .exn)] rfl rfl
    (by simp [faultState]) (by simp [faultState]) ⟨("a", .exn), by simp, rfl⟩

/-- C9: once a mid-step exception made `step` tear down the server state
(client handle cleared along with the server process), every subsequent
`step` call — with any argument — returns the RuntimeError of the
before-reset guard, because that guard requires both a live server process
and a client handle. -/
theorem step_after_teardown (s : EnvState) (a : StepArg) (s1 : EnvState)
    (hd : stepCore s a = (.degraded, s1)) (args : List StepArg) :
    (runSteps s1 args).map Prod.fst
      = args.map (fun _ => StepOutcome.err .runtimeError) :=
  runSteps_no_client s1 (stepCore_degraded_state s a s1 hd).1 args

/-- Witness for C9: after the fault scenario's degraded step, the next call
raises RuntimeError. -/
theorem step_after_teardown_witness :
    (runSteps (stepCore faultState faultArg).2 [StepArg.notDict]).map Prod.fst
      = [StepOutcome.err .runtimeError] := by
  have h := step_after_teardown faultState faultArg
    (stepCore faultState faultArg).2 rfl [StepArg.notDict]
  simpa using h

end MacadGym
